import Mathlib

/-!
Verification development for the alist command-line upload client
(`src/main.rs`).  The program logs in against an alist server
(`POST {base}/api/auth/login`), then streams one local file to
`PUT {base}/api/fs/put`.

Strings are embedded as `List Char`; file bytes as `List Nat`.
External library behaviour used by the source (the `url` crate's
`Url::parse` / `Position::BeforePath` slice, Rust's `str::replace`,
`serde_json::from_str` for the derived `LoginResponse` shape, the `http`
crate's `HeaderValue` validity check, and the tokio `FramedRead` /
`BytesCodec` chunking of the file body) is modelled from the documented
behaviour of those libraries, restricted where noted to the input domain
the claims exercise.
-/

/-! ### URL parsing (model of `url::Url::parse` and the
`[..Position::BeforePath]` slice, `main.rs` lines 77-85)

The model covers absolute `http` / `https` URLs with the shape
`scheme://host[:port][/path...]` and no userinfo, IPv6 literal or
non-ASCII host, which is the domain the claims exercise.  Like the url
crate it lowercases the scheme and host, drops an empty port, drops the
scheme's default port (80 / 443), and rejects ports above 65535. -/

structure UrlParts where
  scheme : List Char
  host : List Char
  port : Option Nat
deriving DecidableEq, Repr

def digitsToNat (ds : List Char) : Nat :=
  ds.foldl (fun n c => 10 * n + (c.toNat - 48)) 0

def schemeOk (s : List Char) : Bool :=
  match s with
  | [] => false
  | c :: rest =>
    c.isAlpha && rest.all (fun d => d.isAlpha || d.isDigit || d == '+' || d == '-' || d == '.')

def hostCharOk (c : Char) : Bool :=
  c.isAlpha || c.isDigit || c == '-' || c == '.' || c == '_'

def parseUrl (s : List Char) : Option UrlParts :=
  let sp := s.span (fun c => c != ':')
  match sp.2 with
  | ':' :: '/' :: '/' :: rest2 =>
    if schemeOk sp.1 then
      let scheme := sp.1.map Char.toLower
      if scheme = ("http").toList ∨ scheme = ("https").toList then
        let auth := (rest2.span (fun c => !(c == '/' || c == '?' || c == '#'))).1
        if auth.contains '@' then none
        else
          let hsp := auth.span (fun c => c != ':')
          let host := hsp.1.map Char.toLower
          if host = [] ∨ host.all hostCharOk = false then none
          else
            match hsp.2 with
            | [] => some ⟨scheme, host, none⟩
            | ':' :: pd =>
              if pd = [] then some ⟨scheme, host, none⟩
              else if pd.all Char.isDigit then
                if digitsToNat pd < 65536 then
                  if (scheme = ("http").toList ∧ digitsToNat pd = 80) ∨
                     (scheme = ("https").toList ∧ digitsToNat pd = 443) then
                    some ⟨scheme, host, none⟩
                  else some ⟨scheme, host, some (digitsToNat pd)⟩
                else none
              else none
            | _ => none
      else none
    else none
  | _ => none

/-- Serialization of everything before the path, i.e. the value of
`parsed_url[..url::Position::BeforePath].to_string()` (`main.rs` line 79). -/
def base_url (p : UrlParts) : List Char :=
  p.scheme ++ [':', '/', '/'] ++ p.host ++
    (match p.port with
     | none => []
     | some n => ':' :: (Nat.repr n).toList)

/-! ### `str::replace` (used at `main.rs` line 123)

Rust's `str::replace` substitutes every non-overlapping occurrence of the
pattern, scanning left to right.  Fuel-driven so that it is structurally
recursive; `s.length` fuel always suffices because each recursive call
strips at least one character.  (Rust's behaviour for an empty pattern is
not modelled; the pattern used by the program, `base_url`, is never
empty.) -/

def replaceAllFuel : Nat → List Char → List Char → List Char → List Char
  | 0, s, _, _ => s
  | fuel + 1, s, pat, rep =>
    match s with
    | [] => []
    | c :: s2 =>
      if 0 < pat.length ∧ pat <+: (c :: s2) then
        rep ++ replaceAllFuel fuel ((c :: s2).drop pat.length) pat rep
      else
        c :: replaceAllFuel fuel s2 pat rep

def replaceAll (s pat rep : List Char) : List Char :=
  replaceAllFuel s.length s pat rep

/-- The derived remote file path: `remote_path.replace(&base_url, "")`
(`main.rs` line 123). -/
def remote_file_path (remote_path base : List Char) : List Char :=
  replaceAll remote_path base []

/-! ### JSON (model of `serde_json::from_str::<LoginResponse>`,
`main.rs` lines 20-29 and 105-106)

A small JSON parser covering objects, arrays, strings (with the standard
escapes; `\uXXXX` only outside the surrogate range), integers, floats
(recognised but their value is irrelevant: no field of the expected shape
is a float), booleans and null.  serde's derive for the source's
`LoginResponse` requires the fields `code` (u16) and `message` (string),
treats the `Option` field `data` as `None` when missing or null, and
ignores unknown fields. -/

inductive Json where
  | null
  | bool (b : Bool)
  | inum (n : Int)
  | fnum
  | str (s : List Char)
  | arr (elems : List Json)
  | obj (fields : List (List Char × Json))

def skipWs : List Char → List Char
  | [] => []
  | c :: s => if c = ' ' ∨ c = '\t' ∨ c = '\n' ∨ c = '\r' then skipWs s else c :: s

def hexVal (c : Char) : Option Nat :=
  if '0' ≤ c ∧ c ≤ '9' then some (c.toNat - 48)
  else if 'a' ≤ c ∧ c ≤ 'f' then some (c.toNat - 87)
  else if 'A' ≤ c ∧ c ≤ 'F' then some (c.toNat - 55)
  else none

def parseHex4 : List Char → Option (Nat × List Char)
  | a :: b :: c :: d :: rest =>
    match hexVal a, hexVal b, hexVal c, hexVal d with
    | some x, some y, some z, some w => some (((x * 16 + y) * 16 + z) * 16 + w, rest)
    | _, _, _, _ => none
  | _ => none

def escChar (e : Char) : Option Char :=
  if e = '"' then some '"'
  else if e = '\\' then some '\\'
  else if e = '/' then some '/'
  else if e = 'b' then some '\x08'
  else if e = 'f' then some '\x0c'
  else if e = 'n' then some '\n'
  else if e = 'r' then some '\r'
  else if e = 't' then some '\t'
  else none

def parseStringBody : Nat → List Char → Option (List Char × List Char)
  | 0, _ => none
  | _ + 1, [] => none
  | fuel + 1, c :: s =>
    if c = '"' then some ([], s)
    else if c = '\\' then
      match s with
      | [] => none
      | e :: s2 =>
        match escChar e with
        | some ch =>
          match parseStringBody fuel s2 with
          | some (cs, rest) => some (ch :: cs, rest)
          | none => none
        | none =>
          if e = 'u' then
            match parseHex4 s2 with
            | some (n, s3) =>
              if n < 55296 ∨ 57344 ≤ n then
                match parseStringBody fuel s3 with
                | some (cs, rest) => some (Char.ofNat n :: cs, rest)
                | none => none
              else none
            | none => none
          else none
    else if c.toNat < 32 then none
    else
      match parseStringBody fuel s with
      | some (cs, rest) => some (c :: cs, rest)
      | none => none

def stripSign (s : List Char) : List Char :=
  match s with
  | '+' :: r => r
  | '-' :: r => r
  | _ => s

def parseExpTail (s : List Char) : Option (List Char) :=
  let sp := (stripSign s).span Char.isDigit
  if sp.1 = [] then none else some sp.2

def parseNumber (s : List Char) : Option (Json × List Char) :=
  let sn : Bool × List Char :=
    match s with
    | '-' :: r => (true, r)
    | _ => (false, s)
  let dsp := sn.2.span Char.isDigit
  if dsp.1 = [] then none
  else if dsp.1.head? = some '0' ∧ 1 < dsp.1.length then none
  else
    match dsp.2 with
    | '.' :: r =>
      let fsp := r.span Char.isDigit
      if fsp.1 = [] then none
      else
        match fsp.2 with
        | 'e' :: r2 => (parseExpTail r2).map (fun s4 => (Json.fnum, s4))
        | 'E' :: r2 => (parseExpTail r2).map (fun s4 => (Json.fnum, s4))
        | _ => some (Json.fnum, fsp.2)
    | 'e' :: r2 => (parseExpTail r2).map (fun s4 => (Json.fnum, s4))
    | 'E' :: r2 => (parseExpTail r2).map (fun s4 => (Json.fnum, s4))
    | _ =>
      let v : Int := Int.ofNat (digitsToNat dsp.1)
      some (Json.inum (if sn.1 then -v else v), dsp.2)

def expectChars : List Char → List Char → Option (List Char)
  | [], s => some s
  | c :: cs, d :: s => if c = d then expectChars cs s else none
  | _ :: _, [] => none

/-- Parsing mode: a whole value, the members of an object (after the
opening brace), or the elements of an array (after the opening bracket). -/
inductive PMode where
  | val
  | members
  | elems

def parseJ : Nat → PMode → List Char → Option (Json × List Char)
  | 0, _, _ => none
  | fuel + 1, PMode.val, s =>
    match skipWs s with
    | [] => none
    | c :: r =>
      if c = '"' then
        match parseStringBody (r.length + 1) r with
        | some (cs, rest) => some (Json.str cs, rest)
        | none => none
      else if c = '{' then parseJ fuel PMode.members r
      else if c = '[' then parseJ fuel PMode.elems r
      else if c = 't' then
        match expectChars (("rue").toList) r with
        | some rest => some (Json.bool true, rest)
        | none => none
      else if c = 'f' then
        match expectChars (("alse").toList) r with
        | some rest => some (Json.bool false, rest)
        | none => none
      else if c = 'n' then
        match expectChars (("ull").toList) r with
        | some rest => some (Json.null, rest)
        | none => none
      else parseNumber (c :: r)
  | fuel + 1, PMode.members, s =>
    match skipWs s with
    | '}' :: rest => some (Json.obj [], rest)
    | '"' :: r =>
      match parseStringBody (r.length + 1) r with
      | some (key, r2) =>
        match skipWs r2 with
        | ':' :: r3 =>
          match parseJ fuel PMode.val r3 with
          | some (v, r4) =>
            match skipWs r4 with
            | ',' :: r5 =>
              match parseJ fuel PMode.members r5 with
              | some (Json.obj fs, rest) => some (Json.obj ((key, v) :: fs), rest)
              | _ => none
            | '}' :: rest => some (Json.obj [(key, v)], rest)
            | _ => none
          | none => none
        | _ => none
      | none => none
    | _ => none
  | fuel + 1, PMode.elems, s =>
    match skipWs s with
    | ']' :: rest => some (Json.arr [], rest)
    | _ =>
      match parseJ fuel PMode.val s with
      | some (v, r2) =>
        match skipWs r2 with
        | ',' :: r3 =>
          match parseJ fuel PMode.elems r3 with
          | some (Json.arr xs, rest) => some (Json.arr (v :: xs), rest)
          | _ => none
        | ']' :: rest => some (Json.arr [v], rest)
        | _ => none
      | none => none

/-- Whole-input JSON parse: `serde_json::from_str` consumes the entire
body (trailing whitespace allowed). -/
def parseJson (s : List Char) : Option Json :=
  match parseJ (s.length + 1) PMode.val s with
  | some (j, rest) => if skipWs rest = [] then some j else none
  | none => none

/-! ### Login data model (`main.rs` lines 14-29) -/

structure LoginRequest where
  username : List Char
  password : List Char
deriving DecidableEq, Repr

structure LoginData where
  token : List Char
deriving DecidableEq, Repr

structure LoginResponse where
  code : Nat
  message : List Char
  data : Option LoginData
deriving DecidableEq, Repr

def jLookup (fields : List (List Char × Json)) (key : List Char) : Option Json :=
  match fields with
  | [] => none
  | (k, v) :: rest => if k = key then some v else jLookup rest key

def decodeU16 : Json → Option Nat
  | Json.inum n => if 0 ≤ n ∧ n < 65536 then some n.toNat else none
  | _ => none

def decodeLoginData : Json → Option LoginData
  | Json.obj fs =>
    match jLookup fs (("token").toList) with
    | some (Json.str s) => some ⟨s⟩
    | _ => none
  | _ => none

/-- serde decodes an `Option` field as `None` when the field is missing or
null, and otherwise requires the inner shape. -/
def decodeOptData : Option Json → Option (Option LoginData)
  | none => some none
  | some Json.null => some none
  | some j => (decodeLoginData j).map some

def decodeLoginResponse : Json → Option LoginResponse
  | Json.obj fs =>
    match jLookup fs (("code").toList), jLookup fs (("message").toList) with
    | some cj, some mj =>
      match decodeU16 cj, mj with
      | some cv, Json.str mv =>
        match decodeOptData (jLookup fs (("data").toList)) with
        | some dv => some ⟨cv, mv, dv⟩
        | none => none
      | _, _ => none
    | _, _ => none
  | _ => none

def parseLoginResponse (body : List Char) : Option LoginResponse :=
  match parseJson body with
  | some j => decodeLoginResponse j
  | none => none

/-- Outcome of the login phase, following the spec's error taxonomy:
`protocolFailure` is the `expect("Failed to deserialize response")` panic,
`authRejected` covers both `eprintln` + exit paths (`message != "success"`
and missing `data`), and `token` is the success path (`main.rs` lines
105-120). -/
inductive LoginResult where
  | token (t : List Char)
  | authRejected
  | protocolFailure
deriving DecidableEq, Repr

/-- The literal `"success"` compared against at `main.rs` line 108. -/
def successMsg : List Char := ("success").toList

/-- The success check of `main.rs` lines 108-120: `message == "success"`
and `data` present.  The token's emptiness is never inspected. -/
def classifyLogin (r : LoginResponse) : LoginResult :=
  if r.message = successMsg then
    match r.data with
    | some d => LoginResult.token d.token
    | none => LoginResult.authRejected
  else LoginResult.authRejected

def login (body : List Char) : LoginResult :=
  match parseLoginResponse body with
  | none => LoginResult.protocolFailure
  | some r => classifyLogin r

/-! ### Header values (model of `http::HeaderValue::from_str`, reached
through `.parse().unwrap()` at `main.rs` lines 125-126)

`HeaderValue::from_bytes` accepts tab and every byte in 32-255 except
DEL (127); in particular the obs-text range 128-255, so non-ASCII UTF-8
is accepted.  Bytes are the UTF-8 encoding of the Rust string. -/

def utf8Bytes1 (c : Char) : List Nat :=
  let n := c.toNat
  if n < 128 then [n]
  else if n < 2048 then [192 + n / 64, 128 + n % 64]
  else if n < 65536 then [224 + n / 4096, 128 + (n / 64) % 64, 128 + n % 64]
  else [240 + n / 262144, 128 + (n / 4096) % 64, 128 + (n / 64) % 64, 128 + n % 64]

def utf8Bytes (s : List Char) : List Nat :=
  (s.map utf8Bytes1).flatten

def headerByteOk (b : Nat) : Bool :=
  (decide (32 ≤ b) && !(b == 127)) || b == 9

def isValidHeaderValue (s : List Char) : Bool :=
  (utf8Bytes s).all headerByteOk

/-! ### The streamed body (model of `FramedRead` + `BytesCodec` +
`Body::wrap_stream`, `main.rs` lines 131-134)

The file is surfaced as a finite sequence of chunks: each poll reads at
most the read-buffer capacity `cap` and `BytesCodec` immediately yields
whatever was read.  Fuel-driven (fuel `bs.length` suffices whenever
`0 < cap`). -/

def chunkStreamFuel : Nat → Nat → List Nat → List (List Nat)
  | 0, _, _ => []
  | fuel + 1, cap, bs =>
    match bs with
    | [] => []
    | b :: r => ((b :: r).take cap) :: chunkStreamFuel fuel cap ((b :: r).drop cap)

def chunkStream (cap : Nat) (bs : List Nat) : List (List Nat) :=
  chunkStreamFuel bs.length cap bs

/-! ### The whole run (`main.rs` lines 77-149, after CLI argument
extraction, which the spec places out of scope)

The environment supplies the CLI-derived inputs and the behaviour of the
outside world: whether each network round-trip succeeds, the login
response body, whether the local file opens, its contents, the transport
read-chunk capacity, and the upload response body. -/

structure Env where
  username : List Char
  password : List Char
  local_file : List Char
  remote_path : List Char
  loginTransportOk : Bool
  loginBody : List Char
  fileOk : Bool
  fileBytes : List Nat
  readCap : Nat
  uploadTransportOk : Bool
  uploadBody : List Char

inductive Ev where
  | loginRequest (method : List Char) (reqUrl : List Char) (body : LoginRequest)
  | fileOpen (path : List Char)
  | uploadRequest (method reqUrl authHeader filePathHeader : List Char)
      (bodyChunks : List (List Nat))
deriving DecidableEq

inductive MainOutcome where
  | invalidUrl
  | loginTransportPanic
  | deserializePanic
  | loginRejectedExit
  | headerPanic
  | fileOpenPanic
  | uploadTransportPanic
  | success (text : List Char)
deriving DecidableEq

def loginEv (e : Env) (p : UrlParts) : Ev :=
  Ev.loginRequest (("POST").toList) (base_url p ++ ("/api/auth/login").toList)
    ⟨e.username, e.password⟩

def uploadEv (e : Env) (p : UrlParts) (t : List Char) : Ev :=
  Ev.uploadRequest (("PUT").toList) (base_url p ++ ("/api/fs/put").toList) t
    (remote_file_path e.remote_path (base_url p)) (chunkStream e.readCap e.fileBytes)

/-- The source's `main`, in order: URL parse and base slice (77-85), login
request (88-98), response deserialization and success check (100-120),
remote path and header construction (123-127), file open (129), streamed
PUT (131-142), response text printed (144-149).  The trace records the
externally visible requests and the file open. -/
def runMain (e : Env) : List Ev × MainOutcome :=
  match parseUrl e.remote_path with
  | none => ([], MainOutcome.invalidUrl)
  | some p =>
    if e.loginTransportOk then
      match login e.loginBody with
      | LoginResult.protocolFailure => ([loginEv e p], MainOutcome.deserializePanic)
      | LoginResult.authRejected => ([loginEv e p], MainOutcome.loginRejectedExit)
      | LoginResult.token t =>
        if isValidHeaderValue t &&
            isValidHeaderValue (remote_file_path e.remote_path (base_url p)) then
          if e.fileOk then
            if e.uploadTransportOk then
              ([loginEv e p, Ev.fileOpen e.local_file, uploadEv e p t],
                MainOutcome.success e.uploadBody)
            else
              ([loginEv e p, Ev.fileOpen e.local_file, uploadEv e p t],
                MainOutcome.uploadTransportPanic)
          else ([loginEv e p, Ev.fileOpen e.local_file], MainOutcome.fileOpenPanic)
        else ([loginEv e p], MainOutcome.headerPanic)
    else ([loginEv e p], MainOutcome.loginTransportPanic)

/-! ### Helper lemmas -/

theorem base_url_ne_nil (p : UrlParts) : base_url p ≠ [] := by
  intro h
  have h2 := congrArg List.length h
  simp [base_url] at h2

theorem infixStep (c : Char) (pat s : List Char) (h : pat <:+: s) : pat <:+: (c :: s) := by
  obtain ⟨l, r, hw⟩ := h
  exact ⟨c :: l, r, by rw [← hw]; simp⟩

theorem replaceAllFuel_id_of_not_infix (rep pat : List Char) (hpat : pat ≠ []) :
    ∀ (fuel : Nat) (s : List Char), s.length ≤ fuel → ¬ pat <:+: s →
      replaceAllFuel fuel s pat rep = s := by
  intro fuel
  induction fuel with
  | zero => intro s _ _; rfl
  | succ f ih =>
    intro s hs hinf
    match s with
    | [] => rfl
    | c :: s2 =>
      have hnp : ¬ (0 < pat.length ∧ pat <+: (c :: s2)) := by
        rintro ⟨-, hp⟩
        exact hinf hp.isInfix
      rw [replaceAllFuel, if_neg hnp, ih s2]
      · simp at hs
        omega
      · intro h2
        exact hinf (infixStep c pat s2 h2)

theorem replaceAllFuel_strip (rep pat rest : List Char) (hpat : pat ≠ [])
    (hinf : ¬ pat <:+: rest) (fuel : Nat) (hf : (pat ++ rest).length ≤ fuel + 1) :
    replaceAllFuel (fuel + 1) (pat ++ rest) pat rep = rep ++ rest := by
  match pat, hpat with
  | p0 :: pt, _ =>
    rw [List.cons_append, replaceAllFuel, if_pos]
    · rw [← List.cons_append, List.drop_left,
        replaceAllFuel_id_of_not_infix rep (p0 :: pt) (by simp) fuel rest _ hinf]
      simp [List.length_append] at hf
      omega
    · constructor
      · simp
      · rw [← List.cons_append]
        exact List.prefix_append (p0 :: pt) rest

theorem replaceAll_strip (pat rest : List Char) (hpat : pat ≠ [])
    (hinf : ¬ pat <:+: rest) :
    replaceAll (pat ++ rest) pat [] = rest := by
  have hpos : 0 < (pat ++ rest).length := by
    match pat, hpat with
    | p0 :: pt, _ => simp
  have h1 : (pat ++ rest).length = ((pat ++ rest).length - 1) + 1 := by omega
  unfold replaceAll
  rw [h1, replaceAllFuel_strip [] pat rest hpat hinf _ (by omega)]
  rfl

theorem chunkStreamFuel_flatten (cap : Nat) (hcap : 0 < cap) :
    ∀ (fuel : Nat) (bs : List Nat), bs.length ≤ fuel →
      (chunkStreamFuel fuel cap bs).flatten = bs := by
  intro fuel
  induction fuel with
  | zero =>
    intro bs h
    have hb : bs = [] := List.eq_nil_of_length_eq_zero (Nat.le_zero.mp h)
    subst hb
    rfl
  | succ f ih =>
    intro bs h
    match bs with
    | [] => rfl
    | b :: r =>
      rw [chunkStreamFuel, List.flatten_cons, ih]
      · exact List.take_append_drop cap (b :: r)
      · simp only [List.length_drop, List.length_cons] at h ⊢
        omega

theorem chunkStream_flatten (cap : Nat) (bs : List Nat) (hcap : 0 < cap) :
    (chunkStream cap bs).flatten = bs :=
  chunkStreamFuel_flatten cap hcap bs.length bs (Nat.le_refl _)

theorem chunkStreamFuel_bounded (cap : Nat) (hcap : 0 < cap) :
    ∀ (fuel : Nat) (bs : List Nat) (c : List Nat), c ∈ chunkStreamFuel fuel cap bs →
      0 < c.length ∧ c.length ≤ cap := by
  intro fuel
  induction fuel with
  | zero => intro bs c hc; simp [chunkStreamFuel] at hc
  | succ f ih =>
    intro bs c hc
    match bs with
    | [] => simp [chunkStreamFuel] at hc
    | b :: r =>
      rw [chunkStreamFuel] at hc
      rcases List.mem_cons.mp hc with h1 | h2
      · subst h1
        rw [List.length_take]
        constructor
        · simp
          omega
        · omega
      · exact ih _ c h2

theorem chunkStreamFuel_count (cap : Nat) (hcap : 0 < cap) :
    ∀ (fuel : Nat) (bs : List Nat), (chunkStreamFuel fuel cap bs).length ≤ bs.length := by
  intro fuel
  induction fuel with
  | zero => intro bs; simp [chunkStreamFuel]
  | succ f ih =>
    intro bs
    match bs with
    | [] => simp [chunkStreamFuel]
    | b :: r =>
      rw [chunkStreamFuel]
      have h2 := ih ((b :: r).drop cap)
      rw [List.length_drop] at h2
      simp at h2 ⊢
      omega

/-- Exhaustive description of every run: which branch of `main` was taken,
the trace it produced and the outcome it ended with. -/
theorem runMain_cases (e : Env) :
    (parseUrl e.remote_path = none ∧ runMain e = ([], MainOutcome.invalidUrl)) ∨
    (∃ p, parseUrl e.remote_path = some p ∧
      ((e.loginTransportOk = false ∧
          runMain e = ([loginEv e p], MainOutcome.loginTransportPanic)) ∨
       (e.loginTransportOk = true ∧
         ((login e.loginBody = LoginResult.protocolFailure ∧
             runMain e = ([loginEv e p], MainOutcome.deserializePanic)) ∨
          (login e.loginBody = LoginResult.authRejected ∧
             runMain e = ([loginEv e p], MainOutcome.loginRejectedExit)) ∨
          (∃ t, login e.loginBody = LoginResult.token t ∧
            (((isValidHeaderValue t &&
                 isValidHeaderValue (remote_file_path e.remote_path (base_url p))) = false ∧
                runMain e = ([loginEv e p], MainOutcome.headerPanic)) ∨
             ((isValidHeaderValue t &&
                 isValidHeaderValue (remote_file_path e.remote_path (base_url p))) = true ∧
               ((e.fileOk = false ∧
                   runMain e = ([loginEv e p, Ev.fileOpen e.local_file],
                     MainOutcome.fileOpenPanic)) ∨
                (e.fileOk = true ∧
                  ((e.uploadTransportOk = false ∧
                      runMain e = ([loginEv e p, Ev.fileOpen e.local_file, uploadEv e p t],
                        MainOutcome.uploadTransportPanic)) ∨
                   (e.uploadTransportOk = true ∧
                      runMain e = ([loginEv e p, Ev.fileOpen e.local_file, uploadEv e p t],
                        MainOutcome.success e.uploadBody)))))))))))) := by
  cases hp : parseUrl e.remote_path with
  | none => exact Or.inl ⟨rfl, by simp [runMain, hp]⟩
  | some p =>
    refine Or.inr ⟨p, rfl, ?_⟩
    cases htr : e.loginTransportOk with
    | false => exact Or.inl ⟨rfl, by simp [runMain, hp, htr]⟩
    | true =>
      refine Or.inr ⟨rfl, ?_⟩
      cases hlog : login e.loginBody with
      | protocolFailure => exact Or.inl ⟨rfl, by simp [runMain, hp, htr, hlog]⟩
      | authRejected => exact Or.inr (Or.inl ⟨rfl, by simp [runMain, hp, htr, hlog]⟩)
      | token t =>
        refine Or.inr (Or.inr ⟨t, rfl, ?_⟩)
        cases hhdr : (isValidHeaderValue t &&
            isValidHeaderValue (remote_file_path e.remote_path (base_url p))) with
        | false => exact Or.inl ⟨rfl, by simp [runMain, hp, htr, hlog, hhdr]⟩
        | true =>
          refine Or.inr ⟨rfl, ?_⟩
          cases hfile : e.fileOk with
          | false => exact Or.inl ⟨rfl, by simp [runMain, hp, htr, hlog, hhdr, hfile]⟩
          | true =>
            refine Or.inr ⟨rfl, ?_⟩
            cases hupl : e.uploadTransportOk with
            | false => exact Or.inl ⟨rfl, by simp [runMain, hp, htr, hlog, hhdr, hfile, hupl]⟩
            | true => exact Or.inr ⟨rfl, by simp [runMain, hp, htr, hlog, hhdr, hfile, hupl]⟩

/-- Inversion: a PUT in the trace pins down every branch condition and all
the request's components. -/
theorem runMain_upload_mem (e : Env) (m u a f : List Char) (c : List (List Nat))
    (h : Ev.uploadRequest m u a f c ∈ (runMain e).1) :
    ∃ p, parseUrl e.remote_path = some p ∧ e.loginTransportOk = true ∧
      login e.loginBody = LoginResult.token a ∧ e.fileOk = true ∧
      m = ("PUT").toList ∧ u = base_url p ++ ("/api/fs/put").toList ∧
      f = remote_file_path e.remote_path (base_url p) ∧
      c = chunkStream e.readCap e.fileBytes := by
  rcases runMain_cases e with ⟨hp, hr⟩ | ⟨p, hp, hrest⟩
  · rw [hr] at h; simp at h
  · rcases hrest with ⟨htr, hr⟩ | ⟨htr, hrest⟩
    · rw [hr] at h; simp [loginEv] at h
    · rcases hrest with ⟨hlog, hr⟩ | ⟨hlog, hr⟩ | ⟨t, hlog, hrest⟩
      · rw [hr] at h; simp [loginEv] at h
      · rw [hr] at h; simp [loginEv] at h
      · rcases hrest with ⟨hhdr, hr⟩ | ⟨hhdr, hrest⟩
        · rw [hr] at h; simp [loginEv] at h
        · rcases hrest with ⟨hfile, hr⟩ | ⟨hfile, hrest⟩
          · rw [hr] at h; simp [loginEv] at h
          · rcases hrest with ⟨hupl, hr⟩ | ⟨hupl, hr⟩ <;>
            · rw [hr] at h
              simp [loginEv, uploadEv] at h
              obtain ⟨hm, hu2, ha, hf2, hc⟩ := h
              subst hm hu2 hf2 hc
              refine ⟨p, hp, htr, ?_, hfile, rfl, rfl, rfl, rfl⟩
              rw [ha]
              exact hlog

/-- Inversion: a file open in the trace means the login round-trip
completed and produced a token. -/
theorem runMain_fileOpen_mem (e : Env) (q : List Char)
    (h : Ev.fileOpen q ∈ (runMain e).1) :
    e.loginTransportOk = true ∧ ∃ t, login e.loginBody = LoginResult.token t := by
  rcases runMain_cases e with ⟨hp, hr⟩ | ⟨p, hp, hrest⟩
  · rw [hr] at h; simp at h
  · rcases hrest with ⟨htr, hr⟩ | ⟨htr, hrest⟩
    · rw [hr] at h; simp [loginEv] at h
    · rcases hrest with ⟨hlog, hr⟩ | ⟨hlog, hr⟩ | ⟨t, hlog, hrest⟩
      · rw [hr] at h; simp [loginEv] at h
      · rw [hr] at h; simp [loginEv] at h
      · rcases hrest with ⟨hhdr, hr⟩ | ⟨hhdr, hrest⟩
        · rw [hr] at h; simp [loginEv] at h
        · exact ⟨htr, t, hlog⟩

/-! ### Claim C1 -/

/-- Claim C1, counterexample.  The claim says `remote_file_path` is the URL
with the base prefix removed "exactly once and only as a prefix", and that
the result always begins with '/'.  Both parts fail on the code, which
removes every occurrence of the base via `str::replace`: for the accepted
URL `http://h/http://h/a` the code produces `//a` instead of stripping the
prefix once (which would give `/http://h/a`), and for the accepted URL
`http://h` (no path) the code produces the empty string, which does not
begin with '/'. -/
theorem C1_counterexample :
    parseUrl (("http://h/http://h/a").toList) =
      some ⟨("http").toList, ("h").toList, none⟩ ∧
    remote_file_path (("http://h/http://h/a").toList)
        (base_url ⟨("http").toList, ("h").toList, none⟩) = ("//a").toList ∧
    ("//a").toList ≠
      (("http://h/http://h/a").toList).drop
        (base_url ⟨("http").toList, ("h").toList, none⟩).length ∧
    parseUrl (("http://h").toList) = some ⟨("http").toList, ("h").toList, none⟩ ∧
    remote_file_path (("http://h").toList)
        (base_url ⟨("http").toList, ("h").toList, none⟩) = [] ∧
    ([] : List Char).head? ≠ some '/' := by
  refine ⟨by decide, by decide, by decide, by decide, by decide, by decide⟩

/-- Claim C1 (amended): the code removes every occurrence of the base from
the URL string; when the serialized base occurs in the URL only as its
leading prefix and the remainder begins with '/', the derived
`remote_file_path` is exactly the URL with that prefix removed and begins
with the path separator '/'. -/
theorem C1_remote_path_strip (u rest : List Char) (p : UrlParts)
    (hp : parseUrl u = some p)
    (hu : u = base_url p ++ rest)
    (hni : ¬ base_url p <:+: rest)
    (hs : rest.head? = some '/') :
    remote_file_path u (base_url p) = rest ∧
    (remote_file_path u (base_url p)).head? = some '/' := by
  have h1 : remote_file_path u (base_url p) = rest := by
    unfold remote_file_path
    rw [hu]
    exact replaceAll_strip (base_url p) rest (base_url_ne_nil p) hni
  exact ⟨h1, by rw [h1]; exact hs⟩

/-- Claim C1 witness: destination `http://h/a`, base `http://h`,
remote path `/a`. -/
theorem C1_remote_path_strip_witness :
    remote_file_path (("http://h/a").toList)
        (base_url ⟨("http").toList, ("h").toList, none⟩) = ("/a").toList ∧
    (remote_file_path (("http://h/a").toList)
        (base_url ⟨("http").toList, ("h").toList, none⟩)).head? = some '/' :=
  C1_remote_path_strip (("http://h/a").toList) (("/a").toList)
    ⟨("http").toList, ("h").toList, none⟩ (by decide) (by decide) (by decide) (by decide)

/-! ### Claims C2 and C3 -/

def bodyEmptyToken : List Char :=
  ("\x7b\"code\":200,\"message\":\"success\",\"data\":\x7b\"token\":\"\"\x7d\x7d").toList

/-- Claim C2, counterexample.  The claim says an empty `data.token` is a
failure, but the code never inspects the token: on the response
`(code 200, message "success", token "")` login succeeds and yields the
empty token. -/
theorem C2_counterexample :
    login bodyEmptyToken = LoginResult.token [] ∧
    login bodyEmptyToken ≠ LoginResult.authRejected ∧
    login bodyEmptyToken ≠ LoginResult.protocolFailure := by
  refine ⟨by decide, by decide, by decide⟩

/-- Claim C2 (amended): login succeeds (yields a token) iff the parsed
response has `message == "success"` and the `data` field present; the
token's emptiness is never checked, so an empty token string also
succeeds. -/
theorem C2_login_success_iff (body t : List Char) :
    login body = LoginResult.token t ↔
      ∃ r, parseLoginResponse body = some r ∧
        r.message = successMsg ∧ r.data = some ⟨t⟩ := by
  unfold login
  cases hpr : parseLoginResponse body with
  | none => simp
  | some r =>
    simp only [Option.some.injEq]
    unfold classifyLogin
    by_cases hm : r.message = successMsg
    · cases hd : r.data with
      | none => simp [hm, hd]
      | some d =>
        cases d with
        | mk dt => simp [hm, hd]
    · simp [hm]

def bodyNoCodeSuccess : List Char :=
  ("\x7b\"message\":\"success\",\"data\":\x7b\"token\":\"abc\"\x7d\x7d").toList

def bodyNoCodeFail : List Char :=
  ("\x7b\"message\":\"fail\"\x7d").toList

def bodyWithCodeSuccess : List Char :=
  ("\x7b\"code\":200,\"message\":\"success\",\"data\":\x7b\"token\":\"abc\"\x7d\x7d").toList

def bodyWithCodeFail : List Char :=
  ("\x7b\"code\":500,\"message\":\"fail\"\x7d").toList

/-- Claim C3, counterexample.  The claim's two JSON bodies omit the
`code` field, yet `LoginResponse.code : u16` is a required serde field, so
both bodies fail deserialization: `(message "success", token "abc")`
yields ProtocolFailure (the deserialize panic) rather than the token
`abc`, and `(message "fail")` yields ProtocolFailure rather than
AuthRejected. -/
theorem C3_counterexample :
    login bodyNoCodeSuccess = LoginResult.protocolFailure ∧
    login bodyNoCodeSuccess ≠ LoginResult.token (("abc").toList) ∧
    login bodyNoCodeFail = LoginResult.protocolFailure ∧
    login bodyNoCodeFail ≠ LoginResult.authRejected := by
  refine ⟨by decide, by decide, by decide, by decide⟩

/-- Claim C3 (amended): with the required `code` field present the claimed
classification holds: `(code 200, message "success", token "abc")` yields
the token `abc`; `(code 500, message "fail")` yields AuthRejected; a
non-JSON body yields ProtocolFailure. -/
theorem C3_classification :
    login bodyWithCodeSuccess = LoginResult.token (("abc").toList) ∧
    login bodyWithCodeFail = LoginResult.authRejected ∧
    login (("not json").toList) = LoginResult.protocolFailure := by
  refine ⟨by decide, by decide, by decide⟩

/-! ### Concrete runs used as witnesses -/

/-- A fully successful run: destination `http://h/a`, login answering
`(code 200, message "success", token "abc")`, a 3-byte file streamed with
read capacity 2, upload answering `ok`. -/
def env0 : Env :=
  ⟨("u").toList, ("p").toList, ("f.bin").toList, ("http://h/a").toList,
    true, bodyWithCodeSuccess, true, [1, 2, 3], 2, true, ("ok").toList⟩

/-- Same run but the local file does not open. -/
def env_badfile : Env :=
  ⟨("u").toList, ("p").toList, ("f.bin").toList, ("http://h/a").toList,
    true, bodyWithCodeSuccess, false, [1, 2, 3], 2, true, ("ok").toList⟩

/-! ### Claim C4 -/

/-- Claim C4: for every run whose trace contains the upload request, the
transmitted body (the concatenation of the streamed chunks) equals the
local file's contents byte for byte, in order — including the empty
file. -/
theorem C4_body_equals_file (e : Env) (m u a f : List Char) (c : List (List Nat))
    (hcap : 0 < e.readCap)
    (h : Ev.uploadRequest m u a f c ∈ (runMain e).1) :
    c.flatten = e.fileBytes := by
  obtain ⟨p, -, -, -, -, -, -, -, hc⟩ := runMain_upload_mem e m u a f c h
  rw [hc]
  exact chunkStream_flatten e.readCap e.fileBytes hcap

/-- Claim C4 witness: the successful run `env0` streams `[1, 2, 3]` as
`[[1, 2], [3]]`, whose concatenation is the file again. -/
theorem C4_body_equals_file_witness :
    (chunkStream env0.readCap env0.fileBytes).flatten = env0.fileBytes :=
  C4_body_equals_file env0 (("PUT").toList)
    (base_url ⟨("http").toList, ("h").toList, none⟩ ++ ("/api/fs/put").toList)
    (("abc").toList)
    (remote_file_path env0.remote_path (base_url ⟨("http").toList, ("h").toList, none⟩))
    (chunkStream env0.readCap env0.fileBytes) (by decide) (by decide)

/-! ### Claim C5 -/

/-- Claim C5: if any file open or upload request appears in the trace,
then the login round-trip completed and produced a token — so whenever
login fails (transport failure, malformed response, or rejection) no
upload is attempted and no local file is opened. -/
theorem C5_login_gates_io (e : Env)
    (h : (∃ q, Ev.fileOpen q ∈ (runMain e).1) ∨
         ∃ m u a f c, Ev.uploadRequest m u a f c ∈ (runMain e).1) :
    e.loginTransportOk = true ∧ ∃ t, login e.loginBody = LoginResult.token t := by
  rcases h with ⟨q, hq⟩ | ⟨m, u, a, f, c, hm⟩
  · exact runMain_fileOpen_mem e q hq
  · obtain ⟨p, -, htr, hlog, -⟩ := runMain_upload_mem e m u a f c hm
    exact ⟨htr, a, hlog⟩

/-- Claim C5 witness: `env0` opens its file, and indeed its login
transport succeeded and its login response yields a token. -/
theorem C5_login_gates_io_witness :
    env0.loginTransportOk = true ∧ ∃ t, login env0.loginBody = LoginResult.token t :=
  C5_login_gates_io env0 (Or.inl ⟨env0.local_file, by decide⟩)

/-! ### Claim C6 -/

/-- Claim C6: when the local file cannot be opened, no upload request is
ever sent, and a run that attempts the open ends with the file-open
failure (the `expect("Failed to open file")` panic). -/
theorem C6_no_put_without_open (e : Env) (hf : e.fileOk = false) :
    (∀ m u a f c, Ev.uploadRequest m u a f c ∉ (runMain e).1) ∧
    (Ev.fileOpen e.local_file ∈ (runMain e).1 →
      (runMain e).2 = MainOutcome.fileOpenPanic) := by
  constructor
  · intro m u a f c hmem
    obtain ⟨p, -, -, -, hfile, -⟩ := runMain_upload_mem e m u a f c hmem
    rw [hf] at hfile
    exact Bool.false_ne_true hfile
  · intro hmem
    rcases runMain_cases e with ⟨hp, hr⟩ | ⟨p, hp, hrest⟩
    · rw [hr] at hmem; simp at hmem
    · rcases hrest with ⟨htr, hr⟩ | ⟨htr, hrest⟩
      · rw [hr] at hmem; simp [loginEv] at hmem
      · rcases hrest with ⟨hlog, hr⟩ | ⟨hlog, hr⟩ | ⟨t, hlog, hrest⟩
        · rw [hr] at hmem; simp [loginEv] at hmem
        · rw [hr] at hmem; simp [loginEv] at hmem
        · rcases hrest with ⟨hhdr, hr⟩ | ⟨hhdr, hrest⟩
          · rw [hr] at hmem; simp [loginEv] at hmem
          · rcases hrest with ⟨hfile, hr⟩ | ⟨hfile, hrest⟩
            · rw [hr]
            · rw [hf] at hfile
              exact absurd hfile Bool.false_ne_true

/-! ### Claim C7 -/

/-- Claim C7: the login request is a POST to `{base}/api/auth/login` whose
JSON body carries the username and password; every upload request is a PUT
to `{base}/api/fs/put` whose `Authorization` header is the raw token
returned by login (no "Bearer" prefix) and whose `File-Path` header is the
derived `remote_file_path`. -/
theorem C7_request_shapes (e : Env) (p : UrlParts)
    (hp : parseUrl e.remote_path = some p) :
    (∀ m u b, Ev.loginRequest m u b ∈ (runMain e).1 →
      m = ("POST").toList ∧ u = base_url p ++ ("/api/auth/login").toList ∧
      b = ⟨e.username, e.password⟩) ∧
    (∀ m u a f c, Ev.uploadRequest m u a f c ∈ (runMain e).1 →
      m = ("PUT").toList ∧ u = base_url p ++ ("/api/fs/put").toList ∧
      login e.loginBody = LoginResult.token a ∧
      f = remote_file_path e.remote_path (base_url p) ∧
      c = chunkStream e.readCap e.fileBytes) := by
  constructor
  · intro m u b hmem
    rcases runMain_cases e with ⟨hp2, hr⟩ | ⟨p2, hp2, hrest⟩
    · rw [hr] at hmem; simp at hmem
    · rw [hp] at hp2
      injection hp2 with hpp
      subst hpp
      rcases hrest with ⟨-, hr⟩ | ⟨-, hrest⟩
      · rw [hr] at hmem
        simp [loginEv] at hmem
        obtain ⟨hm, hu, hb⟩ := hmem
        subst hm hu hb
        exact ⟨rfl, rfl, rfl⟩
      · rcases hrest with ⟨-, hr⟩ | ⟨-, hr⟩ | ⟨t, hlog, hrest⟩
        · rw [hr] at hmem
          simp [loginEv] at hmem
          obtain ⟨hm, hu, hb⟩ := hmem
          subst hm hu hb
          exact ⟨rfl, rfl, rfl⟩
        · rw [hr] at hmem
          simp [loginEv] at hmem
          obtain ⟨hm, hu, hb⟩ := hmem
          subst hm hu hb
          exact ⟨rfl, rfl, rfl⟩
        · rcases hrest with ⟨-, hr⟩ | ⟨-, hrest⟩
          · rw [hr] at hmem
            simp [loginEv] at hmem
            obtain ⟨hm, hu, hb⟩ := hmem
            subst hm hu hb
            exact ⟨rfl, rfl, rfl⟩
          · rcases hrest with ⟨-, hr⟩ | ⟨-, hrest⟩
            · rw [hr] at hmem
              simp [loginEv, uploadEv] at hmem
              obtain ⟨hm, hu, hb⟩ := hmem
              subst hm hu hb
              exact ⟨rfl, rfl, rfl⟩
            · rcases hrest with ⟨-, hr⟩ | ⟨-, hr⟩ <;>
              · rw [hr] at hmem
                simp [loginEv, uploadEv] at hmem
                obtain ⟨hm, hu, hb⟩ := hmem
                subst hm hu hb
                exact ⟨rfl, rfl, rfl⟩
  · intro m u a f c hmem
    obtain ⟨p2, hp2, -, hlog, -, hm, hu, hf, hc⟩ := runMain_upload_mem e m u a f c hmem
    rw [hp] at hp2
    injection hp2 with hpp
    subst hpp
    exact ⟨hm, hu, hlog, hf, hc⟩

/-- Claim C7 witness: the successful run `env0` carries exactly the claimed
method, URL and header shapes. -/
theorem C7_request_shapes_witness :
    (∀ m u b, Ev.loginRequest m u b ∈ (runMain env0).1 →
      m = ("POST").toList ∧
      u = base_url ⟨("http").toList, ("h").toList, none⟩ ++ ("/api/auth/login").toList ∧
      b = ⟨env0.username, env0.password⟩) ∧
    (∀ m u a f c, Ev.uploadRequest m u a f c ∈ (runMain env0).1 →
      m = ("PUT").toList ∧
      u = base_url ⟨("http").toList, ("h").toList, none⟩ ++ ("/api/fs/put").toList ∧
      login env0.loginBody = LoginResult.token a ∧
      f = remote_file_path env0.remote_path
            (base_url ⟨("http").toList, ("h").toList, none⟩) ∧
      c = chunkStream env0.readCap env0.fileBytes) :=
  C7_request_shapes env0 ⟨("http").toList, ("h").toList, none⟩ (by decide)

/-! ### Claim C8 -/

/-- Claim C8: the body is a finite single-pass sequence of chunks, each
nonempty and bounded by the read capacity (so the staging memory is of the
order of one chunk, independent of the file size), and there are at most
as many chunks as file bytes — the file is never materialized as a single
chunk unless it fits in one. -/
theorem C8_chunks_bounded (cap : Nat) (bs : List Nat) (hcap : 0 < cap) :
    (∀ c ∈ chunkStream cap bs, 0 < c.length ∧ c.length ≤ cap) ∧
    (chunkStream cap bs).length ≤ bs.length := by
  constructor
  · intro c hc
    exact chunkStreamFuel_bounded cap hcap bs.length bs c hc
  · exact chunkStreamFuel_count cap hcap bs.length bs

/-- Claim C8 witness: capacity 2 on a 3-byte file gives chunks of length
at most 2. -/
theorem C8_chunks_bounded_witness :
    (∀ c ∈ chunkStream 2 [5, 6, 7], 0 < c.length ∧ c.length ≤ 2) ∧
    (chunkStream 2 [5, 6, 7]).length ≤ ([5, 6, 7] : List Nat).length :=
  C8_chunks_bounded 2 [5, 6, 7] (by decide)

/-! ### Claim C9 -/

/-- Claim C9: a successful run's result is exactly the upload endpoint's
response body, unchanged — the program applies no parsing or semantic
interpretation to it (the spec places terminal formatting out of
scope). -/
theorem C9_success_verbatim (e : Env) (t : List Char)
    (h : (runMain e).2 = MainOutcome.success t) : t = e.uploadBody := by
  rcases runMain_cases e with ⟨hp, hr⟩ | ⟨p, hp, hrest⟩
  · rw [hr] at h; simp at h
  · rcases hrest with ⟨-, hr⟩ | ⟨-, hrest⟩
    · rw [hr] at h; simp at h
    · rcases hrest with ⟨-, hr⟩ | ⟨-, hr⟩ | ⟨t2, hlog, hrest⟩
      · rw [hr] at h; simp at h
      · rw [hr] at h; simp at h
      · rcases hrest with ⟨-, hr⟩ | ⟨-, hrest⟩
        · rw [hr] at h; simp at h
        · rcases hrest with ⟨-, hr⟩ | ⟨-, hrest⟩
          · rw [hr] at h; simp at h
          · rcases hrest with ⟨-, hr⟩ | ⟨-, hr⟩
            · rw [hr] at h; simp at h
            · rw [hr] at h
              simp at h
              exact h.symm

/-- Claim C9 witness: `env0`'s upload endpoint answers `ok` and the run's
outcome carries exactly that text. -/
theorem C9_success_verbatim_witness : ("ok").toList = env0.uploadBody :=
  C9_success_verbatim env0 (("ok").toList) (by decide)

/-! ### Claim C10 -/

def bodyTokenNonAscii : List Char :=
  ("\x7b\"code\":200,\"message\":\"success\",\"data\":\x7b\"token\":\"é\"\x7d\x7d").toList

def bodyTokenCtl : List Char :=
  ("\x7b\"code\":200,\"message\":\"success\",\"data\":\x7b\"token\":\"a\\nb\"\x7d\x7d").toList

/-- Like `env0` but the login response's token is the non-ASCII string
`é`. -/
def env_na : Env :=
  ⟨("u").toList, ("p").toList, ("f.bin").toList, ("http://h/a").toList,
    true, bodyTokenNonAscii, true, [1, 2, 3], 2, true, ("ok").toList⟩

/-- Like `env0` but the login response's token contains a newline
(`a\nb`). -/
def env_ctl : Env :=
  ⟨("u").toList, ("p").toList, ("f.bin").toList, ("http://h/a").toList,
    true, bodyTokenCtl, true, [1, 2, 3], 2, true, ("ok").toList⟩

/-- Claim C10, counterexample.  The claim's example is wrong: non-ASCII
text is NOT an invalid header value for the `http` crate, whose
`HeaderValue` accepts every obs-text byte (128-255).  With the non-ASCII
token `é` (UTF-8 bytes 195, 169) the run does not panic at header
construction — it completes successfully. -/
theorem C10_counterexample :
    login env_na.loginBody = LoginResult.token [('é' : Char)] ∧
    (∃ b ∈ utf8Bytes [('é' : Char)], 128 ≤ b) ∧
    isValidHeaderValue [('é' : Char)] = true ∧
    (runMain env_na).2 ≠ MainOutcome.headerPanic ∧
    (runMain env_na).2 = MainOutcome.success env_na.uploadBody := by
  refine ⟨by decide, ⟨195, by decide⟩, by decide, by decide, by decide⟩

/-- Claim C10 (amended): header construction is partial, but the invalid
bytes are the control bytes (below 32, except tab) and DEL (127), not
non-ASCII text: a run that reached header construction (login produced
token `t`) panics there exactly when `t` or the derived remote file path
contains such a byte; every byte in 128-255 is a valid header value byte,
and under the precondition that both values are valid the construction
always succeeds. -/
theorem C10_header_partiality (e : Env) (p : UrlParts) (t : List Char)
    (hp : parseUrl e.remote_path = some p)
    (htr : e.loginTransportOk = true)
    (hlog : login e.loginBody = LoginResult.token t) :
    ((runMain e).2 = MainOutcome.headerPanic ↔
      ¬ (isValidHeaderValue t = true ∧
         isValidHeaderValue (remote_file_path e.remote_path (base_url p)) = true)) ∧
    (∀ b ∈ utf8Bytes t, 128 ≤ b → headerByteOk b = true) := by
  constructor
  · rcases runMain_cases e with ⟨hp2, hr⟩ | ⟨p2, hp2, hrest⟩
    · rw [hp] at hp2; exact absurd hp2 (Option.some_ne_none p)
    · rw [hp] at hp2
      injection hp2 with hpp
      subst hpp
      rcases hrest with ⟨htr2, hr⟩ | ⟨-, hrest⟩
      · rw [htr] at htr2; exact absurd htr2.symm Bool.false_ne_true
      · rcases hrest with ⟨hlog2, hr⟩ | ⟨hlog2, hr⟩ | ⟨t2, hlog2, hrest⟩
        · rw [hlog] at hlog2; exact absurd hlog2 (by simp)
        · rw [hlog] at hlog2; exact absurd hlog2 (by simp)
        · rw [hlog] at hlog2
          injection hlog2 with ht2
          subst ht2
          rcases hrest with ⟨hhdr, hr⟩ | ⟨hhdr, hrest⟩
          · rw [hr]
            refine iff_of_true rfl ?_
            intro hboth
            rw [hboth.1, hboth.2] at hhdr
            simp at hhdr
          · have hne : (runMain e).2 ≠ MainOutcome.headerPanic := by
              rcases hrest with ⟨-, hr⟩ | ⟨-, hrest⟩
              · rw [hr]; simp
              · rcases hrest with ⟨-, hr⟩ | ⟨-, hr⟩ <;> (rw [hr]; simp)
            rw [Bool.and_eq_true] at hhdr
            simp only [hne, false_iff, not_not]
            exact hhdr
  · intro b _ h128
    unfold headerByteOk
    simp only [Bool.or_eq_true, Bool.and_eq_true, decide_eq_true_eq, Bool.not_eq_true',
      beq_eq_false_iff_ne, ne_eq, beq_iff_eq]
    left
    constructor
    · omega
    · omega

/-- Claim C10 witness: with the token `a\nb` (a control byte, 10) header
construction panics, while the valid-header side of the equivalence and
the obs-text conjunct hold as stated. -/
theorem C10_header_partiality_witness :
    (((runMain env_ctl).2 = MainOutcome.headerPanic ↔
      ¬ (isValidHeaderValue ['a', '\n', 'b'] = true ∧
         isValidHeaderValue (remote_file_path env_ctl.remote_path
           (base_url ⟨("http").toList, ("h").toList, none⟩)) = true)) ∧
    (∀ b ∈ utf8Bytes ['a', '\n', 'b'], 128 ≤ b → headerByteOk b = true)) :=
  C10_header_partiality env_ctl ⟨("http").toList, ("h").toList, none⟩ ['a', '\n', 'b']
    (by decide) (by decide) (by decide)

/-- Claim C6 witness: in `env_badfile` the file open fails, so the run ends
in the file-open failure and its trace contains no upload request. -/
theorem C6_no_put_without_open_witness :
    (∀ m u a f c, Ev.uploadRequest m u a f c ∉ (runMain env_badfile).1) ∧
    (Ev.fileOpen env_badfile.local_file ∈ (runMain env_badfile).1 →
      (runMain env_badfile).2 = MainOutcome.fileOpenPanic) :=
  C6_no_put_without_open env_badfile (by decide)
